import Mathlib

/-!
Shallow embedding of the `lesbin` terminal hex editor
(`src/main.rs`, `src/util.rs`, `src/cfg.rs`) and proofs about
the claims of its specification.

Conventions of the embedding:
* Rust `usize`/`u8` values are modelled as `Nat`; a subtraction that can
  underflow in Rust (a panic in debug builds) is modelled by `checkSub`,
  whose `none` result stands for the panic branch.  Saturating
  subtractions (`saturating_sub`) are ordinary truncated `Nat`
  subtraction, which has exactly the same semantics.
* Out-of-range indexing (`state.bytes[offset]`) is modelled through
  `List.getElem?`, again with `none` for the panic branch.
* The result of the one external side effect reachable from the claims,
  `fs::write` inside `State::save_file`, is supplied as a boolean
  parameter (`true` = the write succeeded).
* `HashMap<usize, [bool; 0x10]>` with `entry(..).or_default()` writes and
  `get(..).copied().unwrap_or_default()` reads behaves exactly like a
  total function `Nat → Nat → Bool` defaulting to `false`; it is modelled
  as such.
-/

namespace Lesbin

/-- Rust `usize` subtraction `a - b`: `none` models the underflow panic. -/
def checkSub (a b : Nat) : Option Nat :=
  if b ≤ a then some (a - b) else none

/-- `enum InputState` from `src/main.rs`. -/
inductive InputState where
  | Regular
  | Goto (buffer : String)
  | Find
  | FindBytes (buffer : String)
  | FindString (buffer : String)
deriving DecidableEq, Repr

/-- Constructor tag of an `InputState`, used to express that event
dispatch never switches the active mode mid-event. -/
def modeTag : InputState → Nat
  | .Regular => 0
  | .Goto _ => 1
  | .Find => 2
  | .FindBytes _ => 3
  | .FindString _ => 4

/-- `crossterm` key codes, restricted to the codes `src/main.rs` inspects. -/
inductive KeyCode where
  | Up
  | Down
  | Left
  | Right
  | Home
  | End
  | Esc
  | Backspace
  | Enter
  | Char (c : Char)
  | Other
deriving DecidableEq, BEq, Repr

/-- The two key modifiers inspected by `src/main.rs`. -/
structure KeyModifiers where
  control : Bool
  alt : Bool
deriving DecidableEq, Repr

/-- A `crossterm` key event as consumed by the editor. -/
structure KeyEvent where
  code : KeyCode
  modifiers : KeyModifiers
deriving DecidableEq, Repr

/-- A `crossterm` mouse event as consumed by `handle_mouse`:
`isLeftDown` is `kind == MouseEventKind::Down(MouseButton::Left)`. -/
structure MouseEvent where
  isLeftDown : Bool
  row : Nat
  column : Nat
  alt : Bool
deriving DecidableEq, Repr

/-- `struct Keybind` from `src/cfg.rs`. -/
structure Keybind where
  control : Bool
  key : Char
deriving DecidableEq, Repr

/-- `Keybind::matches` from `src/cfg.rs`. -/
def Keybind.matches (kb : Keybind) (event : KeyEvent) : Bool :=
  match event.code with
  | .Char c =>
    let control := event.modifiers.control
    let char_matches := kb.key.toLower == c || kb.key.toUpper == c
    kb.control == control && char_matches
  | _ => false

/-- `struct Keybinds` from `src/cfg.rs`. -/
structure Keybinds where
  quit : Keybind
  save : Keybind
  left : Keybind
  down : Keybind
  up : Keybind
  right : Keybind
  toggle_cursor : Keybind
  go_to : Keybind
  find : Keybind
  find_binary : Keybind
  find_text : Keybind
deriving DecidableEq, Repr

/-- `struct State` from `src/main.rs`.  Of `area : Rect` only the height
is ever read by the embedded code, so only the height is kept;
`file_name` is irrelevant to every claim and dropped. -/
structure State where
  scroll_pos : Nat
  max_rows : Nat
  selection : Option (Nat × Nat)
  input_state : InputState
  queued_input_state : Option InputState
  areaHeight : Nat
  bytes : List Nat
  modified : Nat → Nat → Bool
  bottom_text : Option String

/-- `State::new` (the `area` height of `Rect::default()` is 0). -/
def State.new (bytes : List Nat) : State where
  scroll_pos := 0
  max_rows := (bytes.length + 15) / 16
  selection := none
  input_state := .Regular
  queued_input_state := none
  areaHeight := 0
  bytes := bytes
  modified := fun _ _ => false
  bottom_text := none

/-- `State::visible_content_rows`: `self.area.height as usize - 4`,
panicking when the height is below 4. -/
def visible_content_rows (s : State) : Option Nat :=
  checkSub s.areaHeight 4

/-- Rust `char::is_ascii_hexdigit`, on code points: the ASCII ranges
0x30-0x39 (`0`-`9`), 0x61-0x66 (`a`-`f`) and 0x41-0x46 (`A`-`F`). -/
def isAsciiHexdigit (c : Char) : Bool :=
  decide (0x30 ≤ c.toNat ∧ c.toNat ≤ 0x39) ||
  decide (0x61 ≤ c.toNat ∧ c.toNat ≤ 0x66) ||
  decide (0x41 ≤ c.toNat ∧ c.toNat ≤ 0x46)

/-- Value of a single hex digit (code-point arithmetic over the same
three ASCII ranges), `none` for non-hex characters. -/
def hexVal (c : Char) : Option Nat :=
  if 0x30 ≤ c.toNat ∧ c.toNat ≤ 0x39 then some (c.toNat - 0x30)
  else if 0x61 ≤ c.toNat ∧ c.toNat ≤ 0x66 then some (c.toNat - 0x57)
  else if 0x41 ≤ c.toNat ∧ c.toNat ≤ 0x46 then some (c.toNat - 0x37)
  else none

/-- One step of hex-digit accumulation. -/
def hexStep (acc : Option Nat) (c : Char) : Option Nat :=
  match acc, hexVal c with
  | some a, some d => some (a * 16 + d)
  | _, _ => none

/-- Accumulate hex digits left to right; `none` on the empty digit list
or on any non-hex character. -/
def hexDigitsVal (l : List Char) : Option Nat :=
  if l.isEmpty then none
  else l.foldl hexStep (some 0)

/-- `usize::from_str_radix(text, 16)`: an optional leading `+` sign
(unsigned parses reject `-`), then at least one hex digit; values that do
not fit a 64-bit `usize` are a `PosOverflow` error. -/
def parseHex16 (text : String) : Option Nat :=
  let digits :=
    match text.data with
    | '+' :: rest => rest
    | l => l
  match hexDigitsVal digits with
  | some v => if v < 2 ^ 64 then some v else none
  | none => none

/-- Pair up hex digits into byte values; `none` on odd length or on a
non-hex character (the `hex::decode` contract). -/
def hexPairs : List Char → Option (List Nat)
  | [] => some []
  | [_] => none
  | a :: b :: rest =>
    match hexVal a, hexVal b, hexPairs rest with
    | some x, some y, some tail => some ((x * 16 + y) :: tail)
    | _, _, _ => none

/-- `hex::decode` on a string of hex-digit pairs. -/
def hex_decode (text : String) : Option (List Nat) :=
  hexPairs text.data

/-- UTF-8 encoding of one character (byte values as `Nat`). -/
def charUtf8 (c : Char) : List Nat :=
  let n := c.toNat
  if n < 0x80 then [n]
  else if n < 0x800 then
    [0xC0 ||| (n >>> 6), 0x80 ||| (n &&& 0x3F)]
  else if n < 0x10000 then
    [0xE0 ||| (n >>> 12), 0x80 ||| ((n >>> 6) &&& 0x3F), 0x80 ||| (n &&& 0x3F)]
  else
    [0xF0 ||| (n >>> 18), 0x80 ||| ((n >>> 12) &&& 0x3F),
     0x80 ||| ((n >>> 6) &&& 0x3F), 0x80 ||| (n &&& 0x3F)]

/-- `str::as_bytes`: the UTF-8 byte encoding of a string. -/
def strBytes (text : String) : List Nat :=
  (text.data.map charUtf8).flatten

/-- `needle` occurs at the very start of `hay`. -/
def listLeadsWith : List Nat → List Nat → Bool
  | [], _ => true
  | _ :: _, [] => false
  | a :: as_, b :: bs => a == b && listLeadsWith as_ bs

/-- `memchr::memmem::find`: index of the first occurrence of `needle` in
`hay`; an empty needle matches at index 0. -/
def findSub (hay needle : List Nat) : Option Nat :=
  if listLeadsWith needle hay then some 0
  else
    match hay with
    | [] => none
    | _ :: t => (findSub t needle).map (· + 1)

/-- `State::commit_input_state` from `src/main.rs`.  The `_ => panic!`
arm for `Regular`/`Find` is modelled as `none`. -/
def commit_input_state (s : State) : Option State :=
  match s.input_state with
  | .Goto goto_buffer =>
    match parseHex16 goto_buffer with
    | none => some s
    | some goto_offset =>
      if s.bytes.length ≤ goto_offset then some s
      else
        some { s with
          scroll_pos := goto_offset / 0x10
          selection := some (goto_offset / 0x10, goto_offset % 0x10 * 2)
          queued_input_state := some .Regular }
  | .FindBytes needle_string =>
    match hex_decode needle_string with
    | none => some s
    | some needle =>
      match findSub s.bytes needle with
      | none => some s
      | some index =>
        some { s with
          scroll_pos := index / 0x10
          selection := some (index / 0x10, index % 0x10 * 2)
          queued_input_state := some .Regular }
  | .FindString needle_string =>
    match findSub s.bytes (strBytes needle_string) with
    | none => some s
    | some index =>
      some { s with
        scroll_pos := index / 0x10
        selection := some (index / 0x10, index % 0x10 * 2)
        queued_input_state := some .Regular }
  | _ => none

/-- `State::save_file`: the source first clears `modified_bytes`, then
attempts `fs::write`; the write outcome is the `writeOk` parameter and
the returned `Bool` is the `Result` (`true` = `Ok`). -/
def save_file (writeOk : Bool) (s : State) : Bool × State :=
  let s := { s with modified := fun _ _ => false }
  (writeOk, s)

/-- Rust `char::to_digit(10)`: decimal value of a code point in the
ASCII range 0x30-0x39. -/
def toDigit10 (c : Char) : Option Nat :=
  if 0x30 ≤ c.toNat ∧ c.toNat ≤ 0x39 then some (c.toNat - 0x30) else none

/-- Rust `String::pop`: drop the last character. -/
def stringPop (s : String) : String :=
  ⟨s.data.dropLast⟩

/-- The nibble write inlined in `handle_key`'s `KeyCode::Char` arm
(`src/main.rs` lines 438-452): read the byte at
`offset = col / 2 + row * 0x10` (panic, i.e. `none`, when out of range),
replace the addressed nibble by `digit`, and store the byte and set the
modified flag only when the byte actually changed. -/
def write_nibble (bytes : List Nat) (modified : Nat → Nat → Bool)
    (row col digit : Nat) : Option (List Nat × (Nat → Nat → Bool)) :=
  let offset := col / 2 + row * 0x10
  match bytes[offset]? with
  | none => none
  | some prev_byte =>
    let new_byte :=
      if col % 2 = 0 then (prev_byte &&& 0xF) ||| (digit <<< 4)
      else (prev_byte &&& 0xF0) ||| digit
    if prev_byte ≠ new_byte then
      some (bytes.set offset new_byte,
        fun r b => if r = row ∧ b = col / 2 then true else modified r b)
    else
      some (bytes, modified)

/-- The Up arm of `handle_key`. -/
def stepUp (event : KeyEvent) (keybinds : Keybinds) (s : State) : State :=
  if event.code == .Up || keybinds.up.matches event then
    match s.selection with
    | some (row, col) =>
      let row := row - 1
      let s := { s with selection := some (row, col) }
      if row < s.scroll_pos then { s with scroll_pos := s.scroll_pos - 1 } else s
    | none => { s with scroll_pos := s.scroll_pos - 1 }
  else s

/-- The Down arm of `handle_key` (`state.max_rows - 1` underflows when
`max_rows = 0`, and `visible_content_rows` underflows below height 4). -/
def stepDown (event : KeyEvent) (keybinds : Keybinds) (s : State) : Option State :=
  if event.code == .Down || keybinds.down.matches event then
    match s.selection with
    | some (row, col) =>
      match checkSub s.max_rows 1 with
      | none => none
      | some m1 =>
        let row := if row < m1 then row + 1 else row
        let s := { s with selection := some (row, col) }
        match visible_content_rows s with
        | none => none
        | some vcr =>
          some (if s.scroll_pos + vcr ≤ row
            then { s with scroll_pos := s.scroll_pos + 1 } else s)
    | none =>
      some (if s.scroll_pos < s.max_rows
        then { s with scroll_pos := s.scroll_pos + 1 } else s)
  else some s

/-- The Left arm of `handle_key`. -/
def stepLeft (event : KeyEvent) (keybinds : Keybinds) (s : State) : State :=
  if event.code == .Left || keybinds.left.matches event then
    match s.selection with
    | some (row, col) =>
      if !event.modifiers.alt then
        { s with selection := some (row, (col - 2) / 2 * 2) }
      else
        { s with selection := some (row, col - 1) }
    | none => s
  else s

/-- The Right arm of `handle_key`. -/
def stepRight (event : KeyEvent) (keybinds : Keybinds) (s : State) : State :=
  if event.code == .Right || keybinds.right.matches event then
    match s.selection with
    | some (row, col) =>
      if !event.modifiers.alt then
        if col < 0x1e then { s with selection := some (row, (col + 2) / 2 * 2) }
        else s
      else
        if col < 0x1f then { s with selection := some (row, col + 1) }
        else s
    | none => s
  else s

/-- The toggle-cursor arm of `handle_key`. -/
def stepToggle (event : KeyEvent) (keybinds : Keybinds) (s : State) : State :=
  if keybinds.toggle_cursor.matches event then
    match s.selection with
    | some _ => { s with selection := none }
    | none => { s with selection := some (s.scroll_pos, 0) }
  else s

/-- The go-to arm of `handle_key`. -/
def stepGotoKey (event : KeyEvent) (keybinds : Keybinds) (s : State) : State :=
  if keybinds.go_to.matches event then
    { s with queued_input_state := some (.Goto "") }
  else s

/-- The find arm of `handle_key`. -/
def stepFindKey (event : KeyEvent) (keybinds : Keybinds) (s : State) : State :=
  if keybinds.find.matches event then
    { s with queued_input_state := some .Find }
  else s

/-- The save arm of `handle_key`: on a failed `save_file` a status
message is put into `bottom_text` (its exact formatted content is
irrelevant to the claims and abbreviated). -/
def stepSave (keybinds : Keybinds) (saveOk : Bool) (event : KeyEvent)
    (s : State) : State :=
  if keybinds.save.matches event then
    let p := save_file saveOk s
    if p.1 then p.2 else { p.2 with bottom_text := some "Error" }
  else s

/-- The scroll update of `handle_key`'s End arm: with the control
modifier, `scroll_pos = max(scroll_pos, len / 16 - (height - 4) + 1)`,
whose two inner subtractions can underflow. -/
def stepEndScroll (event : KeyEvent) (s : State) : Option State :=
  if event.modifiers.control then
    match visible_content_rows s with
    | none => none
    | some vcr =>
      match checkSub (s.bytes.length / 0x10) vcr with
      | none => none
      | some d => some { s with scroll_pos := max s.scroll_pos (d + 1) }
  else some s

/-- The final `match event.code` of `handle_key` (Home / End / Esc /
digit typing); the returned `Bool` is `handle_key`'s return value
(`false` = quit), `none` models a panic. -/
def stepCode (event : KeyEvent) (s : State) : Option (Bool × State) :=
  match event.code with
  | .Home =>
    let s := if event.modifiers.control then { s with scroll_pos := 0 } else s
    some (true,
      match s.selection with
      | some (row, _) =>
        if event.modifiers.control then { s with selection := some (0, 0) }
        else { s with selection := some (row, 0) }
      | none => s)
  | .End =>
    match stepEndScroll event s with
    | none => none
    | some s =>
      match s.selection with
      | some (row, _) =>
        let rc : Option (Nat × Nat) :=
          if event.modifiers.control then
            match checkSub (s.bytes.length % 0x10 * 2) 1 with
            | none => none
            | some c => some (s.bytes.length / 0x10, c)
          else some (row, 0x1f)
        match rc with
        | none => none
        | some (row, col) =>
          if !event.modifiers.alt then
            match checkSub col 1 with
            | none => none
            | some col => some (true, { s with selection := some (row, col) })
          else some (true, { s with selection := some (row, col) })
      | none => some (true, s)
  | .Esc =>
    match s.selection with
    | some _ => some (true, { s with selection := none })
    | none => some (false, s)
  | .Char c =>
    match s.selection, toDigit10 c with
    | some (row, col), some digit =>
      match write_nibble s.bytes s.modified row col digit with
      | none => none
      | some (bytes, modified) =>
        let s := { s with bytes := bytes, modified := modified }
        let col := col + 1
        some (true,
          if 0x20 ≤ col then { s with selection := some (row + 1, 0) }
          else { s with selection := some (row, col) })
    | _, _ => some (true, s)
  | _ => some (true, s)

/-- `fn handle_key` from `src/main.rs`: the sequence of keybind arms in
source order, then the quit check, then the `match event.code`. -/
def handle_key (event : KeyEvent) (keybinds : Keybinds) (saveOk : Bool)
    (s : State) : Option (Bool × State) :=
  let s := stepUp event keybinds s
  match stepDown event keybinds s with
  | none => none
  | some s =>
    let s := stepLeft event keybinds s
    let s := stepRight event keybinds s
    let s := stepToggle event keybinds s
    let s := stepGotoKey event keybinds s
    let s := stepFindKey event keybinds s
    let s := stepSave keybinds saveOk event s
    if keybinds.quit.matches event then some (false, s)
    else stepCode event s

/-- `fn handle_mouse` from `src/main.rs`. -/
def handle_mouse (event : MouseEvent) (s : State) : Option State :=
  match s.input_state with
  | .Regular =>
    if event.isLeftDown then
      match visible_content_rows s with
      | none => none
      | some vcr =>
        let row0 := event.row - 2
        let rowOpt : Option Nat :=
          if vcr ≤ row0 then checkSub vcr 1 else some row0
        match rowOpt with
        | none => none
        | some row =>
          if 0x27 ≤ event.column then
            let raw_col := event.column - 0x27
            let col := raw_col / 3 * 2
            let col := if event.alt then col + raw_col % 3 else col
            let col := if 0x10 ≤ col then 0xf else col
            some { s with selection := some (row + s.scroll_pos, col + 0x10) }
          else
            let raw_col := event.column - 0xe
            let col := raw_col / 3 * 2
            let col := if event.alt then col + raw_col % 3 else col
            some { s with selection := some (row + s.scroll_pos, col) }
    else some s
  | _ => some s

/-- A terminal event as read by the `run` loop. -/
inductive Event where
  | key (e : KeyEvent)
  | mouse (e : MouseEvent)
  | other

/-- The modal branch of `run` shared by `Goto` and `FindBytes` (buffers
accept only ASCII hex digits), followed by the quit-keybind check. -/
def modalHex (mk : String → InputState) (buffer : String) (event : KeyEvent)
    (keybinds : Keybinds) (s : State) : Option (Bool × State) :=
  let sOpt : Option State :=
    match event.code with
    | .Backspace => some { s with input_state := mk (stringPop buffer) }
    | .Char c =>
      some (if isAsciiHexdigit c
        then { s with input_state := mk (buffer.push c) } else s)
    | .Enter => commit_input_state s
    | .Esc => some { s with queued_input_state := some .Regular }
    | _ => some s
  match sOpt with
  | none => none
  | some s =>
    if keybinds.quit.matches event then some (false, s) else some (true, s)

/-- The `FindString` branch of `run` (any character is appended),
followed by the quit-keybind check. -/
def modalString (buffer : String) (event : KeyEvent) (keybinds : Keybinds)
    (s : State) : Option (Bool × State) :=
  let sOpt : Option State :=
    match event.code with
    | .Backspace => some { s with input_state := .FindString (stringPop buffer) }
    | .Char c => some { s with input_state := .FindString (buffer.push c) }
    | .Enter => commit_input_state s
    | .Esc => some { s with queued_input_state := some .Regular }
    | _ => some s
  match sOpt with
  | none => none
  | some s =>
    if keybinds.quit.matches event then some (false, s) else some (true, s)

/-- One event-dispatch pass of the `run` loop (`src/main.rs` lines
212-290): the Ctrl-C special case first, then dispatch on the input mode
that is active when the event arrives.  The `Bool` is `false` when the
session terminates; `none` models a panic. -/
def dispatch (keybinds : Keybinds) (saveOk : Bool) (event : Event)
    (s : State) : Option (Bool × State) :=
  match event with
  | .key e =>
    if e.code == KeyCode.Char 'c' && e.modifiers.control then some (false, s)
    else
      match s.input_state with
      | .Regular => handle_key e keybinds saveOk s
      | .Goto buffer => modalHex .Goto buffer e keybinds s
      | .FindBytes buffer => modalHex .FindBytes buffer e keybinds s
      | .FindString buffer => modalString buffer e keybinds s
      | .Find =>
        let s := if e.code == KeyCode.Esc
          then { s with queued_input_state := some .Regular } else s
        let s := if keybinds.find_binary.matches e
          then { s with queued_input_state := some (.FindBytes "") } else s
        let s := if keybinds.find_text.matches e
          then { s with queued_input_state := some (.FindString "") } else s
        some (true, s)
  | .mouse m =>
    match handle_mouse m s with
    | none => none
    | some s => some (true, s)
  | .other => some (true, s)

/-- End of the `run` loop body: `mem::take` the queued-transition slot
and, when it held a mode, make that mode active. -/
def apply_queued (s : State) : State :=
  match s.queued_input_state with
  | some q => { s with input_state := q, queued_input_state := none }
  | none => s

/-- A full pass of the `run` loop for one event: dispatch in the active
mode, then (unless the session terminated, which returns from `run`
before reaching the queued-transition code) apply the queued mode
transition before the next event is read. -/
def loop_step (keybinds : Keybinds) (saveOk : Bool) (event : Event)
    (s : State) : Option (Bool × State) :=
  (dispatch keybinds saveOk event s).map
    (fun p => (p.1, if p.1 then apply_queued p.2 else p.2))

/-- `enum LineColor` from `src/util.rs`. -/
inductive LineColor where
  | Regular
  | Emphasis
  | Highlighted
  | TextCursor
  | Modified
  | Address
  | Zero
deriving DecidableEq, Repr

/-- `struct LineWriter` from `src/util.rs`.  The render target is
modelled by the list `draws` of issued draw calls: each
`frame.render_widget(Span::styled(text, style), row)` is recorded as
`(style, text, x)` with `x` the row position drawn at. -/
structure LineWriter where
  buffer : String
  cur_color : LineColor
  origX : Nat
  origW : Nat
  rowX : Nat
  rowW : Nat
  draws : List (LineColor × String × Nat)
deriving DecidableEq, Repr

/-- `LineWriter::new`. -/
def LineWriter.new (x width : Nat) : LineWriter where
  buffer := ""
  cur_color := .Regular
  origX := x
  origW := width
  rowX := x
  rowW := width
  draws := []

/-- `LineWriter::flush`: a no-op on an empty buffer, otherwise one
styled draw of the whole pending text, then `row.x += len` and
`row.width -= len` on `u16` with `len = self.buffer.len() as u16` (the
`as u16` cast truncates the byte length); the `+=` overflow and the
`-=` underflow panic, modelled as `none`, and are reachable when the
composed line is wider than the terminal row. -/
def LineWriter.flush (w : LineWriter) : Option LineWriter :=
  if w.buffer = "" then some w
  else
    let len := w.buffer.utf8ByteSize % 2 ^ 16
    if w.rowX + len ≤ 0xFFFF then
      match checkSub w.rowW len with
      | none => none
      | some width =>
        some { w with
          draws := w.draws ++ [(w.cur_color, w.buffer, w.rowX)]
          rowX := w.rowX + len
          rowW := width
          buffer := "" }
    else none

/-- `LineWriter::write_str` (a panic inside `flush` propagates). -/
def LineWriter.write_str (w : LineWriter) (color : LineColor)
    (content : String) : Option LineWriter :=
  let wOpt : Option LineWriter :=
    if w.cur_color ≠ color then
      match w.flush with
      | none => none
      | some f => some { f with cur_color := color }
    else some w
  match wOpt with
  | none => none
  | some w => some { w with buffer := w.buffer ++ content }

/-- `LineWriter::write_char` (a panic inside `flush` propagates). -/
def LineWriter.write_char (w : LineWriter) (color : LineColor)
    (content : Char) : Option LineWriter :=
  let wOpt : Option LineWriter :=
    if w.cur_color ≠ color then
      match w.flush with
      | none => none
      | some f => some { f with cur_color := color }
    else some w
  match wOpt with
  | none => none
  | some w => some { w with buffer := w.buffer.push content }

/-- `LineWriter::write_whitespace`: append without any style check or
flush. -/
def LineWriter.write_whitespace (w : LineWriter) (content : String) : LineWriter :=
  { w with buffer := w.buffer ++ content }

/-- `LineWriter::seek`: flush, then reposition; the `u16` subtraction
`original_row.width - x_position` panics (is `none`) on terminals
narrower than the seek column. -/
def LineWriter.seek (w : LineWriter) (x_position : Nat) : Option LineWriter :=
  match w.flush with
  | none => none
  | some w =>
    match checkSub w.origW x_position with
    | none => none
    | some width => some { w with rowX := x_position, rowW := width }

/-- The `visible_bytes` computation opening `draw_bottom`
(`src/main.rs` lines 526-529), with each `usize` subtraction that can
underflow modelled by `checkSub`; `min`'s arguments are evaluated left
to right, so the `- 1` of the first argument runs before
`bytes.len() - 0x10`. -/
def visible_bytes (s : State) : Option Nat :=
  match visible_content_rows s with
  | none => none
  | some vcr =>
    match checkSub (s.scroll_pos + vcr) 1 with
    | none => none
    | some a =>
      match checkSub s.bytes.length 0x10 with
      | none => none
      | some cap => some (min (a * 0x10) cap)

/-! Concrete fixtures for witnesses and counterexamples.  `kb0` is a
configuration in the shape `cfg.rs` deserialises: eleven distinct
single-letter keybinds without the control modifier. -/

def kb0 : Keybinds :=
  ⟨⟨false, 'q'⟩, ⟨false, 's'⟩, ⟨false, 'h'⟩, ⟨false, 'j'⟩, ⟨false, 'k'⟩,
   ⟨false, 'l'⟩, ⟨false, 'x'⟩, ⟨false, 'g'⟩, ⟨false, 'f'⟩, ⟨false, 'b'⟩,
   ⟨false, 't'⟩⟩

def stC1 : State :=
  { State.new [0xAA] with modified := fun r b => r == 0 && b == 0 }

def stC2 : State :=
  { State.new (List.replicate 32 0) with
    areaHeight := 10, selection := some (1, 0x1f) }

def stC3 : State :=
  { State.new [1, 2, 3] with input_state := .FindBytes "", scroll_pos := 1 }

def stC4 : State :=
  { State.new (List.replicate 32 0) with input_state := .Goto "10" }

def stC6 : State :=
  { State.new [7] with input_state := .Goto "0" }

def stC7 : State :=
  { State.new [0] with input_state := .Find }

def stC7b : State :=
  { State.new [0] with input_state := .Goto "ab" }

def stC8 : State :=
  { State.new (List.replicate 48 0) with areaHeight := 10 }

def stC10 : State :=
  { State.new (List.replicate 5 0) with areaHeight := 30 }

/-- C1: the claim states that a failed save leaves the ModifiedSet
unchanged.  The code (`State::save_file`) clears `modified_bytes`
*before* attempting `fs::write`, so after a failed save the set is
empty: on a state with the flag for row 0, byte 0 set, a failed save
returns the error (`false`) yet the flag is cleared. -/
theorem c1_failed_save_loses_modified_set :
    stC1.modified 0 0 = true ∧
    (save_file false stC1).1 = false ∧
    (save_file false stC1).2.modified 0 0 = false :=
  ⟨rfl, rfl, rfl⟩

/-- C2: the claim states that every event handler keeps a present
selection inside `row < max_rows` and `col ≤ 0x1f`.  On a 32-byte file
(`max_rows = 2`) with selection `(1, 0x1f)` — in bounds — typing the
digit `5` wraps the column past `0x20` and increments the row to
`2 = max_rows`, leaving the selection out of bounds. -/
theorem c2_digit_wrap_breaks_row_bound :
    stC2.max_rows = 2 ∧
    stC2.selection = some (1, 0x1f) ∧
    (handle_key ⟨.Char '5', ⟨false, false⟩⟩ kb0 true stC2).map
        (fun p => (p.1, p.2.selection, p.2.max_rows)) =
      some (true, some (2, 0), 2) ∧
    ¬ 2 < 2 :=
  ⟨rfl, rfl, rfl, by omega⟩

/-- C3 counterexample: committing `FindBytes` with an empty buffer is
not a silent no-op.  On bytes `[1, 2, 3]` with `scroll_pos = 1`,
`hex::decode("")` succeeds with the empty needle, `memmem::find` locates
it at offset 0, and the commit resets `scroll_pos` to 0, sets
`selection = (0, 0)` and queues a transition back to `Regular`. -/
theorem c3_counterexample :
    stC3.input_state = .FindBytes "" ∧
    stC3.scroll_pos = 1 ∧
    (commit_input_state stC3).map
        (fun t => (t.scroll_pos, t.selection, t.queued_input_state)) =
      some (0, some (0, 0), some .Regular) :=
  ⟨rfl, rfl, rfl⟩

/-- C3 amended: committing a `FindBytes` search with an empty input
buffer decodes to the empty needle, which matches at offset 0: the
commit sets `scroll_pos = 0`, `selection = (0, 0)` and queues a
transition back to `Regular`. -/
theorem c3_empty_needle_commit (s : State)
    (h : s.input_state = .FindBytes "") :
    commit_input_state s =
      some { s with
        scroll_pos := 0
        selection := some (0, 0)
        queued_input_state := some .Regular } := by
  have hfind : findSub s.bytes [] = some 0 := by
    unfold findSub
    rfl
  unfold commit_input_state
  rw [h]
  have hdec : hex_decode "" = some [] := rfl
  simp only [hdec, hfind]

/-- C3 witness: the amended statement applied to the concrete state of
the counterexample. -/
theorem c3_witness :
    commit_input_state stC3 =
      some { stC3 with
        scroll_pos := 0
        selection := some (0, 0)
        queued_input_state := some .Regular } :=
  c3_empty_needle_commit stC3 rfl

/-- A `none` accumulator is absorbing for hex-digit accumulation. -/
lemma foldl_hexStep_none (l : List Char) : l.foldl hexStep none = none := by
  induction l with
  | nil => rfl
  | cons c t ih =>
    have hstep : hexStep none c = none := by
      cases h : hexVal c <;> simp [hexStep, h]
    simpa [List.foldl_cons, hstep] using ih

/-- Any non-hex character in the digit list makes the accumulation fail. -/
lemma foldl_hexStep_bad (l : List Char) (c : Char) (hc : c ∈ l)
    (hbad : hexVal c = none) : ∀ acc, l.foldl hexStep acc = none := by
  induction l with
  | nil => cases hc
  | cons d t ih =>
    intro acc
    rcases List.mem_cons.mp hc with h | h
    · subst h
      have hstep : hexStep acc c = none := by
        cases acc <;> simp [hexStep, hbad]
      simp [List.foldl_cons, hstep, foldl_hexStep_none]
    · simp only [List.foldl_cons]
      exact ih h _

/-- A character outside `0-9a-fA-F` has no hex value. -/
lemma hexVal_eq_none (c : Char) (h : isAsciiHexdigit c = false) :
    hexVal c = none := by
  simp only [isAsciiHexdigit, Bool.or_eq_false_iff, decide_eq_false_iff_not]
    at h
  obtain ⟨⟨h1, h2⟩, h3⟩ := h
  simp [hexVal, h1, h2, h3]

/-- `usize::from_str_radix(_, 16)` fails on a buffer containing a
non-hex character anywhere (provided no character is the sign `+`,
which the editor's hex-filtered buffers can never contain). -/
lemma parseHex16_none_of_bad (buf : String) (hplus : '+' ∉ buf.data)
    (c : Char) (hc : c ∈ buf.data) (hbad : isAsciiHexdigit c = false) :
    parseHex16 buf = none := by
  have hv : hexVal c = none := hexVal_eq_none c hbad
  unfold parseHex16
  have hdig : (match buf.data with
      | '+' :: rest => rest
      | l => l) = buf.data := by
    split
    · rename_i heq
      exact absurd (heq ▸ List.mem_cons_self _ _) hplus
    · rfl
  have hfail : hexDigitsVal buf.data = none := by
    unfold hexDigitsVal
    split
    · rfl
    · exact foldl_hexStep_bad buf.data c hc hv _
  simp only [hdig, hfail]

/-- C4: committing a Go-To buffer parses it as base-16; an empty or
non-hex buffer (hex-filtered buffers never contain `+`), or an offset at
or past the end of the file, is a silent no-op that returns the state —
mode, buffer and everything else — unchanged; a parsed in-range offset
sets `scroll_pos = offset / 16`, `selection = (offset / 16,
(offset % 16) * 2)` and queues a transition back to `Regular`. -/
theorem c4_goto_commit (s : State) (buf : String)
    (h : s.input_state = .Goto buf) :
    (buf = "" → commit_input_state s = some s) ∧
    (('+' ∉ buf.data ∧ ∃ c ∈ buf.data, isAsciiHexdigit c = false) →
      commit_input_state s = some s) ∧
    (∀ off, parseHex16 buf = some off → s.bytes.length ≤ off →
      commit_input_state s = some s) ∧
    (∀ off, parseHex16 buf = some off → off < s.bytes.length →
      commit_input_state s =
        some { s with
          scroll_pos := off / 0x10
          selection := some (off / 0x10, off % 0x10 * 2)
          queued_input_state := some .Regular }) := by
  refine ⟨?_, ?_, ?_, ?_⟩
  · intro hbuf
    subst hbuf
    unfold commit_input_state
    rw [h]
    rfl
  · rintro ⟨hplus, c, hc, hbad⟩
    have hp : parseHex16 buf = none := parseHex16_none_of_bad buf hplus c hc hbad
    unfold commit_input_state
    rw [h]
    simp only [hp]
  · intro off hp hle
    unfold commit_input_state
    rw [h]
    simp only [hp, if_pos hle]
  · intro off hp hlt
    unfold commit_input_state
    rw [h]
    simp only [hp, if_neg (by omega : ¬ s.bytes.length ≤ off)]

/-- C4 witness: the spec's scenario — Go-To `"10"` on a 32-byte buffer
sets `selection = (1, 0)` and `scroll_pos = 1` and queues `Regular`. -/
theorem c4_witness :
    commit_input_state stC4 =
      some { stC4 with
        scroll_pos := 1
        selection := some (1, 0)
        queued_input_state := some .Regular } :=
  (c4_goto_commit stC4 "10" rfl).2.2.2 0x10 rfl (by decide)

set_option maxHeartbeats 4000000 in
set_option maxRecDepth 10000 in
/-- Nibble arithmetic facts for byte values and decimal digits: the
high-nibble write sets the high nibble to the digit and keeps the low
nibble, the low-nibble write does the reverse, and both writes are
stable under repetition. -/
lemma nibble_facts : ∀ a < 256, ∀ d < 10,
    ((a &&& 0xF) ||| (d <<< 4)) / 16 = d ∧
    ((a &&& 0xF) ||| (d <<< 4)) % 16 = a % 16 ∧
    ((a &&& 0xF0) ||| d) / 16 = a / 16 ∧
    ((a &&& 0xF0) ||| d) % 16 = d ∧
    ((((a &&& 0xF) ||| (d <<< 4)) &&& 0xF) ||| (d <<< 4)) =
      (a &&& 0xF) ||| (d <<< 4) ∧
    ((((a &&& 0xF0) ||| d) &&& 0xF0) ||| d) = (a &&& 0xF0) ||| d := by
  decide

/-- C5: for an in-range offset `col / 2 + row * 16`, writing a digit
nibble replaces only the addressed nibble (the high nibble becomes the
digit and the low nibble is preserved when `col` is even, and vice
versa); the byte is stored and the modified flag set only when the new
byte differs from the old; the operation is idempotent (a second
identical write returns the byte sequence and flags unchanged) and never
turns a set modified flag off. -/
theorem c5_write_nibble (bytes : List Nat) (modified : Nat → Nat → Bool)
    (row col digit old newB : Nat)
    (hd : digit ≤ 9)
    (hb : ∀ b ∈ bytes, b < 256)
    (hold : bytes[col / 2 + row * 0x10]? = some old)
    (hnew : newB = if col % 2 = 0 then (old &&& 0xF) ||| (digit <<< 4)
      else (old &&& 0xF0) ||| digit) :
    (newB / 16 = if col % 2 = 0 then digit else old / 16) ∧
    (newB % 16 = if col % 2 = 0 then old % 16 else digit) ∧
    (old = newB →
      write_nibble bytes modified row col digit = some (bytes, modified)) ∧
    (old ≠ newB →
      write_nibble bytes modified row col digit =
        some (bytes.set (col / 2 + row * 0x10) newB,
          fun r b => if r = row ∧ b = col / 2 then true else modified r b)) ∧
    (∀ bytes2 modified2,
      write_nibble bytes modified row col digit = some (bytes2, modified2) →
      write_nibble bytes2 modified2 row col digit = some (bytes2, modified2)) ∧
    (∀ bytes2 modified2,
      write_nibble bytes modified row col digit = some (bytes2, modified2) →
      ∀ r b, modified r b = true → modified2 r b = true) := by
  have hlt : old < 256 := hb old (List.getElem?_mem hold)
  have hd10 : digit < 10 := by omega
  obtain ⟨f1, f2, f3, f4, f5, f6⟩ := nibble_facts old hlt digit hd10
  have hno : old = newB →
      write_nibble bytes modified row col digit = some (bytes, modified) := by
    intro heq
    simp only [write_nibble, hold]
    rw [← hnew, if_neg (by simp [heq])]
  have hyes : old ≠ newB →
      write_nibble bytes modified row col digit =
        some (bytes.set (col / 2 + row * 0x10) newB,
          fun r b => if r = row ∧ b = col / 2 then true else modified r b) := by
    intro hne
    simp only [write_nibble, hold]
    rw [← hnew, if_pos hne]
  have hofflt : col / 2 + row * 0x10 < bytes.length := by
    obtain ⟨hl, -⟩ := List.getElem?_eq_some_iff.mp hold
    exact hl
  refine ⟨?_, ?_, hno, hyes, ?_, ?_⟩
  · by_cases hcol : col % 2 = 0 <;> simp [hnew, hcol, f1, f3]
  · by_cases hcol : col % 2 = 0 <;> simp [hnew, hcol, f2, f4]
  · intro bytes2 modified2 hw
    by_cases heq : old = newB
    · rw [hno heq] at hw
      injection hw with hw
      injection hw with hw1 hw2
      subst hw1
      subst hw2
      exact hno heq
    · rw [hyes heq] at hw
      injection hw with hw
      injection hw with hw1 hw2
      subst hw1
      subst hw2
      have hget2 : (bytes.set (col / 2 + row * 0x10) newB)[col / 2 + row * 0x10]? =
          some newB := List.getElem?_set_self hofflt
      have hstable : (if col % 2 = 0 then (newB &&& 0xF) ||| (digit <<< 4)
          else (newB &&& 0xF0) ||| digit) = newB := by
        by_cases hcol : col % 2 = 0
        · rw [if_pos hcol, hnew, if_pos hcol]
          exact f5
        · rw [if_neg hcol, hnew, if_neg hcol]
          exact f6
      simp only [write_nibble, hget2, hstable]
      rw [if_neg (by simp : ¬ newB ≠ newB)]
  · intro bytes2 modified2 hw r b hrb
    by_cases heq : old = newB
    · rw [hno heq] at hw
      injection hw with hw
      injection hw with hw1 hw2
      subst hw2
      exact hrb
    · rw [hyes heq] at hw
      injection hw with hw
      injection hw with hw1 hw2
      subst hw2
      by_cases hmatch : r = row ∧ b = col / 2 <;> simp [hmatch, hrb]

/-- C5 witness: writing digit 7 into the high nibble of the single byte
`0x03` stores `0x73` and sets the flag for row 0, byte 0. -/
theorem c5_witness :
    write_nibble [3] (fun _ _ => false) 0 0 7 =
      some ([0x73], fun r b => if r = 0 ∧ b = 0 then true else false) :=
  (c5_write_nibble [3] (fun _ _ => false) 0 0 7 3 0x73 (by decide)
    (by decide) rfl rfl).2.2.2.1 (by decide)

/-- `stepUp` never touches the input mode. -/
lemma stepUp_input_state (e : KeyEvent) (kb : Keybinds) (s : State) :
    (stepUp e kb s).input_state = s.input_state := by
  simp only [stepUp]
  repeat' split
  all_goals rfl

/-- `stepDown` never touches the input mode. -/
lemma stepDown_input_state {e : KeyEvent} {kb : Keybinds} {s t : State}
    (h : stepDown e kb s = some t) : t.input_state = s.input_state := by
  simp only [stepDown] at h
  repeat' split at h
  all_goals try cases h
  all_goals rfl

/-- `stepLeft` never touches the input mode. -/
lemma stepLeft_input_state (e : KeyEvent) (kb : Keybinds) (s : State) :
    (stepLeft e kb s).input_state = s.input_state := by
  simp only [stepLeft]
  repeat' split
  all_goals rfl

/-- `stepRight` never touches the input mode. -/
lemma stepRight_input_state (e : KeyEvent) (kb : Keybinds) (s : State) :
    (stepRight e kb s).input_state = s.input_state := by
  simp only [stepRight]
  repeat' split
  all_goals rfl

/-- `stepToggle` never touches the input mode. -/
lemma stepToggle_input_state (e : KeyEvent) (kb : Keybinds) (s : State) :
    (stepToggle e kb s).input_state = s.input_state := by
  simp only [stepToggle]
  repeat' split
  all_goals rfl

/-- `stepGotoKey` never touches the input mode. -/
lemma stepGotoKey_input_state (e : KeyEvent) (kb : Keybinds) (s : State) :
    (stepGotoKey e kb s).input_state = s.input_state := by
  simp only [stepGotoKey]
  split
  all_goals rfl

/-- `stepFindKey` never touches the input mode. -/
lemma stepFindKey_input_state (e : KeyEvent) (kb : Keybinds) (s : State) :
    (stepFindKey e kb s).input_state = s.input_state := by
  simp only [stepFindKey]
  split
  all_goals rfl

/-- `stepSave` never touches the input mode. -/
lemma stepSave_input_state (kb : Keybinds) (ok : Bool) (e : KeyEvent)
    (s : State) : (stepSave kb ok e s).input_state = s.input_state := by
  simp only [stepSave, save_file]
  repeat' split
  all_goals rfl

/-- `stepEndScroll` never touches the input mode. -/
lemma stepEndScroll_input_state {e : KeyEvent} {s t : State}
    (h : stepEndScroll e s = some t) : t.input_state = s.input_state := by
  simp only [stepEndScroll] at h
  repeat' split at h
  all_goals try cases h
  all_goals rfl

/-- `stepCode` never touches the input mode. -/
lemma stepCode_input_state {e : KeyEvent} {s t : State} {c : Bool}
    (h : stepCode e s = some (c, t)) : t.input_state = s.input_state := by
  simp only [stepCode] at h
  repeat' split at h
  all_goals try cases h
  all_goals first
    | rfl
    | (rename stepEndScroll _ _ = some _ => hes
       rw [← stepEndScroll_input_state hes])

/-- `handle_key` never touches the input mode: the Regular-mode handler
reads and writes navigation, bytes and the queued slot only. -/
lemma handle_key_input_state {e : KeyEvent} {kb : Keybinds} {ok c : Bool}
    {s t : State} (h : handle_key e kb ok s = some (c, t)) :
    t.input_state = s.input_state := by
  simp only [handle_key] at h
  cases hd : stepDown e kb (stepUp e kb s) with
  | none =>
    rw [hd] at h
    cases h
  | some s2 =>
    rw [hd] at h
    dsimp only at h
    have h2 : s2.input_state = s.input_state := by
      rw [stepDown_input_state hd, stepUp_input_state]
    by_cases hq : kb.quit.matches e = true
    · rw [if_pos hq] at h
      injection h with h
      injection h with h1 ht
      subst ht
      rw [stepSave_input_state, stepFindKey_input_state,
        stepGotoKey_input_state, stepToggle_input_state,
        stepRight_input_state, stepLeft_input_state, h2]
    · rw [if_neg hq] at h
      rw [stepCode_input_state h, stepSave_input_state,
        stepFindKey_input_state, stepGotoKey_input_state,
        stepToggle_input_state, stepRight_input_state,
        stepLeft_input_state, h2]

/-- `commit_input_state` only writes scroll, selection and the queued
slot; the active input mode is untouched. -/
lemma commit_preserves_input_state {s t : State}
    (h : commit_input_state s = some t) : t.input_state = s.input_state := by
  simp only [commit_input_state] at h
  repeat' split at h
  all_goals try cases h
  all_goals rfl

/-- `handle_mouse` only writes the selection; the input mode is
untouched. -/
lemma handle_mouse_input_state {m : MouseEvent} {s t : State}
    (h : handle_mouse m s = some t) : t.input_state = s.input_state := by
  simp only [handle_mouse] at h
  repeat' split at h
  all_goals try cases h
  all_goals rfl

/-- The modal hex branch keeps the constructor of the input mode when
`mk` produces the mode's own constructor. -/
lemma modalHex_tag {mk : String → InputState} {buffer : String}
    {e : KeyEvent} {kb : Keybinds} {s t : State} {c : Bool}
    (hmk : ∀ b, modeTag (mk b) = modeTag s.input_state)
    (h : modalHex mk buffer e kb s = some (c, t)) :
    modeTag t.input_state = modeTag s.input_state := by
  simp only [modalHex] at h
  revert h
  cases hcode : e.code <;> intro h <;> dsimp only at h
  all_goals repeat' split at h
  all_goals try cases h
  all_goals first
    | rfl
    | exact hmk _
    | (rename commit_input_state _ = some _ => hcm
       rw [commit_preserves_input_state hcm])

/-- The `FindString` modal branch keeps the constructor of the input
mode. -/
lemma modalString_tag {buffer : String} {e : KeyEvent} {kb : Keybinds}
    {s t : State} {c : Bool}
    (hmode : modeTag s.input_state = modeTag (InputState.FindString buffer))
    (h : modalString buffer e kb s = some (c, t)) :
    modeTag t.input_state = modeTag s.input_state := by
  simp only [modalString] at h
  revert h
  cases hcode : e.code <;> intro h <;> dsimp only at h
  all_goals repeat' split at h
  all_goals try cases h
  all_goals first
    | rfl
    | (rw [hmode]; rfl)
    | (rename commit_input_state _ = some _ => hcm
       rw [commit_preserves_input_state hcm])

/-- C6: one dispatch pass processes the event entirely in the input mode
that was active when the event arrived (the mode constructor after
dispatch is the one from before), the queued-transition slot is applied
only after the event is fully handled (`loop_step` is exactly dispatch
followed by `apply_queued` on the continuing state), and after the
single queued transition is consumed the slot is empty before the next
event is read. -/
theorem c6_single_queued_transition (keybinds : Keybinds) (saveOk : Bool)
    (event : Event) (s : State) (c : Bool) (s2 : State)
    (h : dispatch keybinds saveOk event s = some (c, s2)) :
    modeTag s2.input_state = modeTag s.input_state ∧
    loop_step keybinds saveOk event s =
      some (c, if c then apply_queued s2 else s2) ∧
    (apply_queued s2).queued_input_state = none := by
  refine ⟨?_, ?_, ?_⟩
  · unfold dispatch at h
    cases event with
    | key e =>
      dsimp only at h
      by_cases hcc : (e.code == KeyCode.Char 'c' && e.modifiers.control) = true
      · rw [if_pos hcc] at h
        injection h with h
        injection h with h1 h2
        subst h2
        rfl
      · rw [if_neg hcc] at h
        cases hmode : s.input_state with
        | Regular =>
          rw [hmode] at h
          rw [handle_key_input_state h, hmode]
        | Goto buffer =>
          rw [hmode] at h
          exact (modalHex_tag (fun b => by rw [hmode]; rfl) h).trans
            (by rw [hmode])
        | FindBytes buffer =>
          rw [hmode] at h
          exact (modalHex_tag (fun b => by rw [hmode]; rfl) h).trans
            (by rw [hmode])
        | FindString buffer =>
          rw [hmode] at h
          exact (modalString_tag (by rw [hmode]) h).trans (by rw [hmode])
        | Find =>
          rw [hmode] at h
          injection h with h
          injection h with h1 h2
          subst h2
          repeat' split
          all_goals simp only [hmode]
    | mouse m =>
      dsimp only at h
      cases hm : handle_mouse m s with
      | none =>
        rw [hm] at h
        cases h
      | some s3 =>
        rw [hm] at h
        injection h with h
        injection h with h1 h2
        subst h2
        rw [handle_mouse_input_state hm]
    | other =>
      dsimp only at h
      injection h with h
      injection h with h1 h2
      subst h2
      rfl
  · unfold loop_step
    rw [h]
    rfl
  · unfold apply_queued
    cases hq : s2.queued_input_state with
    | none => simpa using hq
    | some q => rfl

/-- C6 witness: committing a Go-To with Enter queues `Regular`; the pass
applies the single transition after the event, leaving the slot empty. -/
theorem c6_witness :
    modeTag ({ stC6 with
        scroll_pos := 0
        selection := some (0, 0)
        queued_input_state := some .Regular } : State).input_state =
      modeTag stC6.input_state ∧
    loop_step kb0 true (.key ⟨.Enter, ⟨false, false⟩⟩) stC6 =
      some (true, if true then apply_queued { stC6 with
        scroll_pos := 0
        selection := some (0, 0)
        queued_input_state := some .Regular } else { stC6 with
        scroll_pos := 0
        selection := some (0, 0)
        queued_input_state := some .Regular }) ∧
    (apply_queued { stC6 with
        scroll_pos := 0
        selection := some (0, 0)
        queued_input_state := some .Regular }).queued_input_state = none :=
  c6_single_queued_transition kb0 true (.key ⟨.Enter, ⟨false, false⟩⟩) stC6
    true _ rfl

/-- A matching keybind event always carries a character key code. -/
lemma matches_code {kb : Keybind} {e : KeyEvent}
    (h : kb.matches e = true) : ∃ k, e.code = .Char k := by
  unfold Keybind.matches at h
  revert h
  cases hcode : e.code <;> intro h
  all_goals first
    | cases h
    | exact ⟨_, rfl⟩

/-- In `handle_key`, a quit-keybind match makes the handler return
`false` (after the earlier arms have run). -/
lemma handle_key_quit {e : KeyEvent} {kb : Keybinds} {ok c : Bool}
    {s t : State} (hq : kb.quit.matches e = true)
    (h : handle_key e kb ok s = some (c, t)) : c = false := by
  simp only [handle_key] at h
  cases hd : stepDown e kb (stepUp e kb s) with
  | none =>
    rw [hd] at h
    cases h
  | some s2 =>
    rw [hd] at h
    dsimp only at h
    rw [if_pos hq] at h
    injection h with h
    injection h with h1 h2
    exact h1.symm

/-- In the hex modal branch, a quit-keybind match terminates. -/
lemma modalHex_quit {mk : String → InputState} {buffer : String}
    {e : KeyEvent} {kb : Keybinds} {s : State} {k : Char}
    (hk : e.code = .Char k) (hq : kb.quit.matches e = true) :
    ∃ s2, modalHex mk buffer e kb s = some (false, s2) := by
  simp only [modalHex, hk, hq, if_true]
  exact ⟨_, rfl⟩

/-- In the `FindString` modal branch, a quit-keybind match terminates. -/
lemma modalString_quit {buffer : String} {e : KeyEvent} {kb : Keybinds}
    {s : State} {k : Char} (hk : e.code = .Char k)
    (hq : kb.quit.matches e = true) :
    ∃ s2, modalString buffer e kb s = some (false, s2) := by
  simp only [modalString, hk, hq, if_true]
  exact ⟨_, rfl⟩

/-- C7 counterexample: with the quit keybinding bound to `q`, pressing
`q` in the `Find` chooser mode does not terminate the session — the
`Find` dispatch arm never consults the quit keybinding, so the claim
that the quit key terminates in every mode is false. -/
theorem c7_counterexample :
    Keybind.matches kb0.quit ⟨.Char 'q', ⟨false, false⟩⟩ = true ∧
    stC7.input_state = .Find ∧
    (dispatch kb0 true (.key ⟨.Char 'q', ⟨false, false⟩⟩) stC7).map
        (fun p => (p.1, modeTag p.2.input_state)) =
      some (true, modeTag .Find) :=
  ⟨rfl, rfl, rfl⟩

/-- C7 amended: Ctrl-C terminates the session in every mode and is the
only check performed before mode-specific dispatch; the quit keybinding
terminates the session in the `Regular`, `Goto`, `FindBytes` and
`FindString` modes (checked during mode-specific handling, after the
mode's own arms have run), while the `Find` chooser mode does not check
it at all. -/
theorem c7_quit_and_ctrl_c (keybinds : Keybinds) (saveOk : Bool) :
    (∀ (s : State) (alt : Bool),
      dispatch keybinds saveOk (.key ⟨.Char 'c', ⟨true, alt⟩⟩) s =
        some (false, s)) ∧
    (∀ (e : KeyEvent) (s : State) (buffer : String),
      keybinds.quit.matches e = true →
      (s.input_state = .Goto buffer ∨ s.input_state = .FindBytes buffer ∨
        s.input_state = .FindString buffer) →
      ∃ s2, dispatch keybinds saveOk (.key e) s = some (false, s2)) ∧
    (∀ (e : KeyEvent) (s : State) (c : Bool) (s2 : State),
      s.input_state = .Regular →
      keybinds.quit.matches e = true →
      dispatch keybinds saveOk (.key e) s = some (c, s2) →
      c = false) := by
  refine ⟨fun s alt => rfl, ?_, ?_⟩
  · intro e s buffer hq hmode
    by_cases hcc : (e.code == KeyCode.Char 'c' && e.modifiers.control) = true
    · refine ⟨s, ?_⟩
      unfold dispatch
      dsimp only
      rw [if_pos hcc]
    · obtain ⟨k, hk⟩ := matches_code hq
      rcases hmode with hmode | hmode | hmode
      all_goals
        unfold dispatch
      all_goals
        dsimp only
      all_goals
        rw [if_neg hcc, hmode]
      · exact modalHex_quit hk hq
      · exact modalHex_quit hk hq
      · exact modalString_quit hk hq
  · intro e s c s2 hmode hq hdisp
    unfold dispatch at hdisp
    dsimp only at hdisp
    by_cases hcc : (e.code == KeyCode.Char 'c' && e.modifiers.control) = true
    · rw [if_pos hcc] at hdisp
      injection hdisp with hdisp
      injection hdisp with h1 h2
      exact h1.symm
    · rw [if_neg hcc, hmode] at hdisp
      exact handle_key_quit hq hdisp

/-- C7 witness: in `Goto` mode the quit key does terminate. -/
theorem c7_witness :
    Keybind.matches kb0.quit ⟨.Char 'q', ⟨false, false⟩⟩ = true ∧
    ∃ s2, dispatch kb0 true (.key ⟨.Char 'q', ⟨false, false⟩⟩) stC7b =
      some (false, s2) :=
  ⟨rfl, (c7_quit_and_ctrl_c kb0 true).2.1 ⟨.Char 'q', ⟨false, false⟩⟩
    stC7b "ab" rfl (Or.inl rfl)⟩

/-- C8 counterexample: a left-button click in the left half-row at
screen column `0x26` (with the click mapping to a selection) produces
nibble column `0x10 > 0xf` — the left-half computation is not clamped,
refuting the claim that left-half clicks always produce `col ≤ 0xf`. -/
theorem c8_counterexample :
    stC8.input_state = .Regular ∧
    (handle_mouse ⟨true, 2, 0x26, false⟩ stC8).map (fun t => t.selection) =
      some (some (0, 0x10)) ∧
    ¬ (0x10 : Nat) ≤ 0xf :=
  ⟨rfl, rfl, by omega⟩

/-- C8 amended: right-half clicks (screen column `≥ 0x27`) clamp the
nibble column to `[0, 0xf]` before `0x10` is added, so they always
produce `col ∈ [0x10, 0x1f]`; left-half clicks are not clamped — they
stay `≤ 0xf` only for screen columns up to `0x24`, and columns
`0x25`/`0x26` can produce `col = 0x10`. -/
theorem c8_mouse_column_halves (e : MouseEvent) (s : State)
    (hmode : s.input_state = .Regular) (hdown : e.isLeftDown = true)
    (hh : 5 ≤ s.areaHeight) :
    (0x27 ≤ e.column →
      ∃ r c, handle_mouse e s = some { s with selection := some (r, c) } ∧
        0x10 ≤ c ∧ c ≤ 0x1f) ∧
    (e.column ≤ 0x24 →
      ∃ r c, handle_mouse e s = some { s with selection := some (r, c) } ∧
        c ≤ 0xf) := by
  have hvcr : visible_content_rows s = some (s.areaHeight - 4) := by
    unfold visible_content_rows checkSub
    rw [if_pos (by omega)]
  have hrowOpt : (if s.areaHeight - 4 ≤ e.row - 2
        then checkSub (s.areaHeight - 4) 1 else some (e.row - 2)) =
      some (if s.areaHeight - 4 ≤ e.row - 2
        then s.areaHeight - 4 - 1 else e.row - 2) := by
    unfold checkSub
    split
    · rw [if_pos (by omega)]
    · rfl
  simp only [handle_mouse, hmode, hdown, if_true, hvcr, hrowOpt]
  constructor
  · intro hcol
    rw [if_pos hcol]
    refine ⟨_, _, rfl, ?_, ?_⟩ <;> (repeat' split) <;> omega
  · intro hcol
    rw [if_neg (by omega)]
    refine ⟨_, _, rfl, ?_⟩
    have hraw : e.column - 0xe ≤ 0x16 := by omega
    split <;> omega

/-- C8 witness: a right-half click far to the right clamps to the last
nibble column `0x1f`. -/
theorem c8_witness :
    ∃ r c, handle_mouse ⟨true, 2, 0x40, false⟩ stC8 =
      some { stC8 with selection := some (r, c) } ∧ 0x10 ≤ c ∧ c ≤ 0x1f :=
  (c8_mouse_column_halves ⟨true, 2, 0x40, false⟩ stC8 rfl rfl
    (by decide)).1 (by decide)

/-- C9: a write whose style equals the current run's style only appends
to the pending buffer (no draw is issued, and the write cannot panic); a
write with a differing style first flushes the pending buffer — when
non-empty and when the row-cursor `u16` arithmetic stays in range, as
exactly one styled draw covering its full text — and then makes the new
style current; and `write_whitespace` (the source's raw append) appends
without any style check or flush.  Outside the in-range hypotheses the
flush's `u16` update panics, which `write_str` propagates as `none`. -/
theorem c9_line_writer (w : LineWriter) (color : LineColor)
    (text : String) :
    (w.cur_color = color →
      w.write_str color text = some { w with buffer := w.buffer ++ text }) ∧
    (w.cur_color ≠ color → w.buffer ≠ "" →
      w.buffer.utf8ByteSize % 2 ^ 16 ≤ w.rowW →
      w.rowX + w.buffer.utf8ByteSize % 2 ^ 16 ≤ 0xFFFF →
      w.write_str color text =
        some { w with
          draws := w.draws ++ [(w.cur_color, w.buffer, w.rowX)]
          rowX := w.rowX + w.buffer.utf8ByteSize % 2 ^ 16
          rowW := w.rowW - w.buffer.utf8ByteSize % 2 ^ 16
          cur_color := color
          buffer := text }) ∧
    (w.cur_color ≠ color → w.buffer = "" →
      w.write_str color text =
        some { w with cur_color := color, buffer := text }) ∧
    (w.write_whitespace text = { w with buffer := w.buffer ++ text }) := by
  refine ⟨?_, ?_, ?_, rfl⟩
  · intro hcolor
    unfold LineWriter.write_str
    rw [if_neg (by simp [hcolor])]
  · intro hcolor hbuf hlow hhigh
    unfold LineWriter.write_str LineWriter.flush checkSub
    rw [if_pos hcolor]
    dsimp only
    rw [if_neg hbuf, if_pos hhigh, if_pos hlow]
    dsimp only
    show some ({ w with
      draws := w.draws ++ [(w.cur_color, w.buffer, w.rowX)]
      rowX := w.rowX + w.buffer.utf8ByteSize % 2 ^ 16
      rowW := w.rowW - w.buffer.utf8ByteSize % 2 ^ 16
      cur_color := color
      buffer := "" ++ text } : LineWriter) = _
    rfl
  · intro hcolor hbuf
    unfold LineWriter.write_str LineWriter.flush
    rw [if_pos hcolor, if_pos hbuf]
    dsimp only
    simp only [hbuf]
    rfl

/-- C9 witness: flushing on a style change — on an 80-column row with 2
pending bytes at position 5, the cursor arithmetic is in range, the
pending run `(Regular, "ab")` becomes one draw at position 5 and the new
style and text become current. -/
theorem c9_witness :
    LineWriter.write_str ⟨"ab", .Regular, 0, 80, 5, 75, []⟩ .Emphasis "cd" =
      some ⟨"cd", .Emphasis, 0, 80, 7, 73, [(.Regular, "ab", 5)]⟩ :=
  (c9_line_writer ⟨"ab", .Regular, 0, 80, 5, 75, []⟩ .Emphasis "cd").2.1
    (by decide) (by decide) (by decide) (by decide)

/-- C10: the bottom status line computes
`min((scroll_pos + visible_rows - 1) * 16, len - 16)` with an unguarded
`len - 0x10`: for any state whose file is at least 16 bytes the value is
defined and equals that formula, and for every file shorter than 16
bytes (the empty file included) the subtraction underflows — the panic
branch (`none`) is hit for every scroll position, in particular on the
very first frame (`scroll_pos = 0`). -/
theorem c10_visible_bytes_underflow (s : State) (h5 : 5 ≤ s.areaHeight) :
    (s.bytes.length < 0x10 → visible_bytes s = none) ∧
    (0x10 ≤ s.bytes.length →
      visible_bytes s =
        some (min ((s.scroll_pos + (s.areaHeight - 4) - 1) * 0x10)
          (s.bytes.length - 0x10))) := by
  have h4 : 4 ≤ s.areaHeight := by omega
  have h1 : 1 ≤ s.scroll_pos + (s.areaHeight - 4) := by omega
  simp only [visible_bytes, visible_content_rows, checkSub, if_pos h4,
    if_pos h1]
  constructor
  · intro hlen
    rw [if_neg (by omega)]
  · intro hlen
    rw [if_pos hlen]

/-- C10 witness: a 5-byte file rendered on a 30-row terminal hits the
underflow on the first frame. -/
theorem c10_witness : visible_bytes stC10 = none :=
  (c10_visible_bytes_underflow stC10 (by decide)).1 (by decide)

end Lesbin
